import Mathlib

/-!
Shallow embedding of `load_data.py` from the fitpantry_dataloader repository.

The script is a one-shot ETL pipeline: read a recipes CSV, clean it
(`load_and_clean_data`), sample it, and load it into a database in batches
(`create_embeddings_and_load`), with a top-level exception handler in `main`.

External libraries are modelled for the fragment the script exercises:
* `ast.literal_eval` is modelled as a parser over Python literals of the kinds
  the data can contain (strings, ints, floats, booleans, None, and lists of
  those); escape sequences and exponent notation are outside the modelled
  fragment and parse as syntax errors, which the script treats the same way.
* pandas column operations are modelled as list traversals that stop at the
  first raised exception, matching the observable behaviour of `Series.apply`.
* `DataFrame.sample(n, random_state=42)` is modelled as a deterministic
  pseudo-random selection without replacement driven by a fixed seed.
* the database session is modelled as a commit trace: each batch commit either
  succeeds or raises, and committed batches are never rolled back.

Python exceptions are modelled with `Except`; `sys.exit(k)` is modelled
separately from ordinary exceptions because `SystemExit` does not inherit from
`Exception` and therefore escapes `except Exception` handlers.
-/

set_option autoImplicit false

/-- The Python exception kinds that load_data.py can raise or catch.
`dbError` stands for any exception raised by a database commit. -/
inductive PyExc
  | valueError
  | syntaxError
  | typeError
  | indexError
  | dbError
  deriving DecidableEq, Repr

/-- Python literal values producible by `ast.literal_eval` on the fragment of
literals the script feeds it. A float literal with digits `m` and `s` digits
after the decimal point is stored exactly as `.float m s`, denoting the
rational `m / 10 ^ s` (see `pyQ`). -/
inductive PyValue
  | str (s : String)
  | int (n : Int)
  | float (m : Int) (s : Nat)
  | bool (b : Bool)
  | none
  | list (xs : List PyValue)
  deriving Repr

/-- The numeric value denoted by a Python numeric literal, if any. -/
def pyQ : PyValue → Option ℚ
  | .int n => some (n : ℚ)
  | .float m s => some ((m : ℚ) / (10 : ℚ) ^ s)
  | .bool b => some (if b then 1 else 0)
  | _ => Option.none

/-- The single-quote character. -/
def quote1 : Char := Char.ofNat 39

/-- The double-quote character. -/
def quote2 : Char := Char.ofNat 34

/-- The backslash character (escape sequences are outside the modelled
fragment of `ast.literal_eval`). -/
def backslashChar : Char := Char.ofNat 92

/-- Whitespace characters skipped between tokens. -/
def isWs (c : Char) : Bool :=
  c = ' ' || c = Char.ofNat 9 || c = Char.ofNat 10 || c = Char.ofNat 13

/-- Skip leading whitespace. -/
def skipWs (cs : List Char) : List Char := cs.dropWhile isWs

/-- Numeric value of a decimal digit character. -/
def digitVal (c : Char) : Nat := c.toNat - 48

/-- Read a maximal run of decimal digits, returning their value, their count,
and the rest of the input. -/
def readDigits : List Char → Nat → Nat → Nat × Nat × List Char
  | c :: cs, acc, k =>
    if c.isDigit then readDigits cs (acc * 10 + digitVal c) (k + 1)
    else (acc, k, c :: cs)
  | [], acc, k => (acc, k, [])

/-- Parse a Python int or float literal (optional sign, digits, optional
decimal point; exponent notation is outside the modelled fragment). -/
def parseNumber (cs : List Char) : Option (PyValue × List Char) :=
  let signAndRest : Int × List Char :=
    match cs with
    | c :: rest => if c = '-' then (-1, rest) else if c = '+' then (1, rest) else (1, cs)
    | [] => (1, [])
  let sign := signAndRest.1
  let cs1 := signAndRest.2
  let ipRes := readDigits cs1 0 0
  let ip := ipRes.1
  let ik := ipRes.2.1
  match ipRes.2.2 with
  | c :: rest =>
    if c = '.' then
      let fpRes := readDigits rest 0 0
      let fp := fpRes.1
      let fk := fpRes.2.1
      if ik = 0 && fk = 0 then Option.none
      else some (.float (sign * (ip * 10 ^ fk + fp)) fk, fpRes.2.2)
    else if ik = 0 then Option.none else some (.int (sign * ip), c :: rest)
  | [] => if ik = 0 then Option.none else some (.int (sign * ip), [])

/-- Read the body of a quoted string up to the closing quote `q`. -/
def readStr (q : Char) : List Char → Option (List Char × List Char)
  | [] => Option.none
  | c :: cs =>
    if c = q then some ([], cs)
    else if c = backslashChar then Option.none
    else match readStr q cs with
      | some (s, rest) => some (c :: s, rest)
      | Option.none => Option.none

mutual

/-- Parse one Python literal value; `fuel` bounds the recursion depth. -/
def parseVal : Nat → List Char → Option (PyValue × List Char)
  | 0, _ => Option.none
  | fuel + 1, cs =>
    match skipWs cs with
    | [] => Option.none
    | c :: rest =>
      if c = '[' then
        match skipWs rest with
        | d :: rest2 =>
          if d = ']' then some (.list [], rest2) else parseItems fuel [] (d :: rest2)
        | [] => Option.none
      else if c = quote1 || c = quote2 then
        match readStr c rest with
        | some (s, r) => some (.str (String.mk s), r)
        | Option.none => Option.none
      else if c.isDigit || c = '-' || c = '+' || c = '.' then
        parseNumber (c :: rest)
      else if ("None".toList).isPrefixOf (c :: rest) then
        some (.none, (c :: rest).drop 4)
      else if ("True".toList).isPrefixOf (c :: rest) then
        some (.bool true, (c :: rest).drop 4)
      else if ("False".toList).isPrefixOf (c :: rest) then
        some (.bool false, (c :: rest).drop 5)
      else Option.none

/-- Parse the comma-separated elements of a list literal (after `[`),
accumulating into `acc`; a trailing comma before `]` is accepted, as in
Python. -/
def parseItems : Nat → List PyValue → List Char → Option (PyValue × List Char)
  | 0, _, _ => Option.none
  | fuel + 1, acc, cs =>
    match parseVal fuel cs with
    | Option.none => Option.none
    | some (v, rest) =>
      match skipWs rest with
      | c :: rest2 =>
        if c = ',' then
          match skipWs rest2 with
          | d :: rest3 =>
            if d = ']' then some (.list (acc ++ [v]), rest3)
            else parseItems fuel (acc ++ [v]) (d :: rest3)
          | [] => Option.none
        else if c = ']' then some (.list (acc ++ [v]), rest2)
        else Option.none
      | [] => Option.none

end

/-- Model of `ast.literal_eval` on the fragment of Python literals the data
can contain: parse one literal, requiring the whole input to be consumed. -/
def literal_eval (s : String) : Except PyExc PyValue :=
  match parseVal (2 * s.length + 4) s.toList with
  | some (v, rest) => if skipWs rest = [] then .ok v else .error .syntaxError
  | Option.none => .error .syntaxError

/-- Is this exception caught by `clean_text`'s handler
`except (ValueError, SyntaxError)`? -/
def caughtByCleanText (e : PyExc) : Bool :=
  match e with
  | .valueError => true
  | .syntaxError => true
  | _ => false

/-- Model of Python's `", ".join(items)`: succeeds only when every element is
a string, otherwise raises `TypeError` (which `clean_text` does not catch). -/
def joinComma (xs : List PyValue) : Except PyExc String :=
  match xs.mapM (fun v => match v with | .str s => some s | _ => Option.none) with
  | some ss => .ok (String.intercalate ", " ss)
  | Option.none => .error .typeError

/-- `clean_text` from load_data.py: parse the string as a literal; if the
result is a list, join its elements with a comma-space; otherwise (or on a
ValueError/SyntaxError from parsing) return the input unchanged. A TypeError
raised by the join escapes, since the handler catches only ValueError and
SyntaxError. -/
def clean_text (s : String) : Except PyExc String :=
  match literal_eval s with
  | .ok (.list xs) => joinComma xs
  | .ok _ => .ok s
  | .error e => if caughtByCleanText e then .ok s else .error e

/-- One raw CSV row restricted to the four kept columns
`['name', 'nutrition', 'steps', 'ingredients']`; `Option.none` models a
missing cell (pandas `NaN`). -/
structure RawRow where
  name : Option String
  nutrition : Option String
  steps : Option String
  ingredients : Option String
  deriving Repr

/-- A row after the nutrition columns have been added by
`load_and_clean_data` (the original four columns are all kept: the source
never drops the `nutrition` column). -/
structure ParsedRow where
  name : Option String
  nutrition : Option String
  steps : Option String
  ingredients : Option String
  calories : PyValue
  fat_g : PyValue
  protein_g : PyValue
  carbs_g : PyValue
  deriving Repr

/-- Model of `Series.apply(f)` where `f` can raise: elements are processed in
order and the first raised exception aborts the whole column operation. -/
def mapE {α β : Type} (f : α → Except PyExc β) : List α → Except PyExc (List β)
  | [] => .ok []
  | a :: l =>
    match f a with
    | .error e => .error e
    | .ok b =>
      match mapE f l with
      | .error e => .error e
      | .ok bs => .ok (b :: bs)

/-- `ast.literal_eval` applied to one cell of the `nutrition` column: on a
missing cell (pandas `NaN`, a float) `literal_eval` raises
`ValueError("malformed node or string")`. -/
def parseNut : Option String → Except PyExc PyValue
  | Option.none => .error .valueError
  | some s => literal_eval s

/-- Python subscription `v[i]`: `IndexError` when the index is out of range,
`TypeError` when the value is not subscriptable (the nutrition use only ever
subscripts lists). -/
def pyIndex (v : PyValue) (i : Nat) : Except PyExc PyValue :=
  match v with
  | .list xs =>
    match xs.get? i with
    | some x => .ok x
    | Option.none => .error .indexError
  | _ => .error .typeError

/-- Zip the raw rows with the four extracted nutrition columns
(`calories = x[0]`, `fat_g = x[1]`, `protein_g = x[4]`, `carbs_g = x[6]`). -/
def buildParsed : List RawRow → List PyValue → List PyValue → List PyValue → List PyValue → List ParsedRow
  | r :: rs, a :: as, b :: bs, c :: cs, d :: ds =>
    ⟨r.name, r.nutrition, r.steps, r.ingredients, a, b, c, d⟩ :: buildParsed rs as bs cs ds
  | _, _, _, _, _ => []

/-- One pass of the nutrition block of `load_and_clean_data` (lines 58-62 and
again 67-71): apply `ast.literal_eval` to the whole `nutrition` column, then
extract `x[0]`, `x[1]`, `x[4]`, `x[6]` column-wise; the first exception from
any of these column operations aborts the pass. -/
def nutritionPass (rows : List RawRow) : Except PyExc (List ParsedRow) :=
  match mapE (fun r => parseNut r.nutrition) rows with
  | .error e => .error e
  | .ok nut =>
    match mapE (fun v => pyIndex v 0) nut with
    | .error e => .error e
    | .ok cal =>
      match mapE (fun v => pyIndex v 1) nut with
      | .error e => .error e
      | .ok fat =>
        match mapE (fun v => pyIndex v 4) nut with
        | .error e => .error e
        | .ok prot =>
          match mapE (fun v => pyIndex v 6) nut with
          | .error e => .error e
          | .ok carb => .ok (buildParsed rows cal fat prot carb)

/-- The nutrition block with its `except Exception` fallback (lines 57-71):
if the first pass raises anything, drop all rows with a missing `nutrition`
cell (`df.dropna(subset=['nutrition'])`) and retry the pass exactly once over
the reduced set; an exception from the retry propagates to the caller. -/
def cleanNutritionStage (rows : List RawRow) : Except PyExc (List ParsedRow) :=
  match nutritionPass rows with
  | .ok out => .ok out
  | .error _ => nutritionPass (rows.filter (fun r => r.nutrition.isSome))

/-- `clean_text` applied to one cell of the `steps` / `ingredients` column:
on a missing cell `literal_eval` raises `ValueError`, which `clean_text`
catches, returning the cell unchanged. -/
def cleanTextCell : Option String → Except PyExc (Option String)
  | Option.none => .ok Option.none
  | some s =>
    match clean_text s with
    | .ok t => .ok (some t)
    | .error e => .error e

/-- Overwrite the `steps` and `ingredients` columns with their cleaned
values. -/
def applyText : List ParsedRow → List (Option String) → List (Option String) → List ParsedRow
  | r :: rs, s :: ss, i :: il =>
    { r with steps := s, ingredients := i } :: applyText rs ss il
  | _, _, _ => []

/-- Lines 74-75: `df['steps'] = df['steps'].apply(clean_text)` and likewise
for `ingredients`; not inside any `try`, so an uncaught exception from
`clean_text` (a `TypeError` from the join) propagates to `main`. -/
def textStage (rows : List ParsedRow) : Except PyExc (List ParsedRow) :=
  match mapE (fun r => cleanTextCell r.steps) rows with
  | .error e => .error e
  | .ok st =>
    match mapE (fun r => cleanTextCell r.ingredients) rows with
    | .error e => .error e
    | .ok ing => .ok (applyText rows st ing)

/-- Is this cell value missing in the pandas sense (`None` / `NaN`)? -/
def pyMissing : PyValue → Bool
  | .none => true
  | _ => false

/-- The `dropna` predicate of line 77: all of `name`, `calories`,
`protein_g`, `fat_g`, `carbs_g`, `steps`, `ingredients` present. -/
def requiredPresent (r : ParsedRow) : Bool :=
  r.name.isSome && !pyMissing r.calories && !pyMissing r.protein_g &&
    !pyMissing r.fat_g && !pyMissing r.carbs_g && r.steps.isSome && r.ingredients.isSome

/-- The comparison `calories > 0` on one cell (line 78). Python booleans are
ints (`True > 0` holds); comparing a non-numeric value with `0` raises
`TypeError`. -/
def pyGtZero (v : PyValue) : Except PyExc Bool :=
  match v with
  | .int n => .ok (decide (0 < n))
  | .float m _ => .ok (decide (0 < m))
  | .bool b => .ok b
  | _ => .error .typeError

/-- Keep the rows whose mask entry is `true` (`df[mask]`). -/
def keepMasked : List ParsedRow → List Bool → List ParsedRow
  | r :: rs, b :: bs => if b then r :: keepMasked rs bs else keepMasked rs bs
  | _, _ => []

/-- Line 78, `df = df[df['calories'] > 0]`: evaluate the whole comparison
column, then filter by it. -/
def caloriesFilter (rows : List ParsedRow) : Except PyExc (List ParsedRow) :=
  match mapE (fun r => pyGtZero r.calories) rows with
  | .error e => .error e
  | .ok mask => .ok (keepMasked rows mask)

/-- `SAMPLE_SIZE = 50000` from the configuration block. -/
def SAMPLE_SIZE : Nat := 50000

/-- `BATCH_SIZE = 1000` from the configuration block. -/
def BATCH_SIZE : Nat := 1000

/-- A linear congruential step, the pseudo-random source of the sampler
model. -/
def lcgStep (s : Nat) : Nat := (s * 1103515245 + 12345) % 2 ^ 31

/-- Model of the selection core of `DataFrame.sample(n, random_state=seed)`:
deterministically draw `n` rows without replacement, driven by the seed. The
exact permutation pandas derives from the seed is internal to pandas; the
model fixes one concrete deterministic choice with the same contract (a
subset of exactly `min n len` rows, reproducible from the seed alone). -/
def sampleDraw {α : Type} : Nat → Nat → List α → List α
  | 0, _, _ => []
  | n + 1, s, l =>
    if h : l.length = 0 then []
    else
      l.get ⟨lcgStep s % l.length, Nat.mod_lt _ (Nat.pos_of_ne_zero h)⟩ ::
        sampleDraw n (lcgStep s) (l.eraseIdx (lcgStep s % l.length))

/-- Lines 82-83: `if len(df) > SAMPLE_SIZE: df = df.sample(n=SAMPLE_SIZE,
random_state=42)`, with the target size as a parameter. -/
def sampleStage {α : Type} (n : Nat) (l : List α) : List α :=
  if n < l.length then sampleDraw n 42 l else l

/-- `load_and_clean_data` from load_data.py, after the CSV has been read and
restricted to the four kept columns: the nutrition block with its fallback,
the `steps`/`ingredients` text cleaning, the `dropna` over the seven required
columns, the `calories > 0` filter, and the sampling step. -/
def load_and_clean_data (rows : List RawRow) : Except PyExc (List ParsedRow) :=
  match cleanNutritionStage rows with
  | .error e => .error e
  | .ok p =>
    match textStage p with
    | .error e => .error e
    | .ok t =>
      match caloriesFilter (t.filter requiredPresent) with
      | .error e => .error e
      | .ok pos => .ok (sampleStage SAMPLE_SIZE pos)

/-- The 3-row scenario input of the spec: three otherwise valid rows, the
second with `calories = 0`. -/
def threeRows : List RawRow :=
  [⟨some "soup", some "[100.0, 1.0, 0.0, 0.0, 2.0, 0.0, 3.0]", some "heat", some "water"⟩,
   ⟨some "air", some "[0.0, 0.0, 0.0, 0.0, 0.0, 0.0, 0.0]", some "breathe", some "air"⟩,
   ⟨some "cake", some "[250.0, 9.0, 0.0, 0.0, 4.0, 0.0, 30.0]", some "bake", some "flour"⟩]

/-- The first surviving row of the 3-row scenario after cleaning. -/
def cleanedSoup : ParsedRow :=
  ⟨some "soup", some "[100.0, 1.0, 0.0, 0.0, 2.0, 0.0, 3.0]", some "heat", some "water",
    .float 1000 1, .float 10 1, .float 20 1, .float 30 1⟩

/-- The second surviving row of the 3-row scenario after cleaning. -/
def cleanedCake : ParsedRow :=
  ⟨some "cake", some "[250.0, 9.0, 0.0, 0.0, 4.0, 0.0, 30.0]", some "bake", some "flour",
    .float 2500 1, .float 90 1, .float 40 1, .float 300 1⟩

/-- The cleaner's output on `threeRows`: the zero-calorie row is gone. -/
def cleanedThree : List ParsedRow := [cleanedSoup, cleanedCake]

/-- The nutrition string of the spec's extraction scenario. -/
def nutStr : String := "[100.0, 5.0, 2.0, 1.0, 3.0, 0.5, 10.0]"

/-- A raw row carrying the spec's scenario nutrition string. -/
def nutRow : RawRow := ⟨some "dish", some nutStr, some "st", some "ing"⟩

/-- Two rows of which the first has a missing nutrition cell: the first
nutrition pass raises `ValueError`, triggering the global fallback. -/
def fallbackRows : List RawRow :=
  [⟨some "soup", Option.none, some "heat", some "water"⟩,
   ⟨some "cake", some "[250.0, 9.0, 0.0, 0.0, 4.0, 0.0, 30.0]", some "bake", some "flour"⟩]

/-- Fuel-driven core of the batching loop: `fuel` is an upper bound on the
number of rows, so the recursion is structural. With `0 < B` and
`l.length ≤ fuel` this produces exactly the slices
`l[0:B], l[B:2B], ...` of `for i in range(0, len(df), BATCH_SIZE):
batch_df = df.iloc[i : i + BATCH_SIZE]`. -/
def chunkGo {α : Type} (B : Nat) : Nat → List α → List (List α)
  | 0, _ => []
  | _ + 1, [] => []
  | fuel + 1, x :: l => (x :: l).take B :: chunkGo B fuel ((x :: l).drop B)

/-- The contiguous batches of size `B` of a list (last batch possibly
shorter). -/
def chunkList {α : Type} (B : Nat) (l : List α) : List (List α) :=
  chunkGo B l.length l

/-- Fuel-driven list of batch sizes for `n` rows in batches of `B`. -/
def chunkSizesGo (B : Nat) : Nat → Nat → List Nat
  | 0, _ => []
  | _ + 1, 0 => []
  | fuel + 1, n + 1 => min B (n + 1) :: chunkSizesGo B fuel (n + 1 - B)

/-- The batch sizes for `n` rows in batches of `B`. -/
def chunkSizes (B n : Nat) : List Nat := chunkSizesGo B n n

/-- One persisted `Recipe` object (models/Recipe in models.py, without the
auto-assigned primary key). -/
structure Recipe where
  name : Option String
  calories : PyValue
  protein_g : PyValue
  fat_g : PyValue
  carbs_g : PyValue
  ingredients : Option String
  steps : Option String
  embedding : List ℚ
  deriving Repr

/-- The text embedded for one row:
`batch_df['name'] + ". Ingredients: " + batch_df['ingredients']`. After the
cleaner both columns are present; a missing cell would make the pandas string
concatenation produce `NaN`, which is outside the reachable states and
modelled as the empty string. -/
def embedText (r : ParsedRow) : String :=
  r.name.getD "" ++ ". Ingredients: " ++ r.ingredients.getD ""

/-- Build one `Recipe` object from a cleaned row and its embedding vector
(lines 107-118). -/
def mkRecipe (r : ParsedRow) (e : List ℚ) : Recipe :=
  ⟨r.name, r.calories, r.protein_g, r.fat_g, r.carbs_g, r.ingredients, r.steps, e⟩

/-- The objects added for one batch: embed the batch's texts with one call to
`model.encode`, then zip rows with embeddings (`zip` truncates to the shorter
operand, as in Python). -/
def mkObjects (encode : List String → List (List ℚ)) (batch : List ParsedRow) : List Recipe :=
  List.zipWith mkRecipe batch (encode (batch.map embedText))

/-- Outcome of a run of the batch-loading loop: the records committed to the
sink in order, the indices of the batches whose commit was attempted, and
whether the loop finished without an exception. -/
structure LoadResult where
  persisted : List Recipe
  attempted : List Nat
  success : Bool
  deriving Repr

/-- The body of `create_embeddings_and_load`: process the batches in order,
starting at batch index `j`. `failAt = some K` models a sink whose commit of
batch `K` raises; the exception aborts the loop at once — previously
committed batches stay committed (each batch was its own transaction) and no
later batch is attempted. -/
def commitLoop (encode : List String → List (List ℚ)) (failAt : Option Nat) :
    Nat → List (List ParsedRow) → LoadResult
  | _, [] => ⟨[], [], true⟩
  | j, b :: bs =>
    let objs := mkObjects encode b
    if failAt = some j then ⟨[], [j], false⟩
    else
      let r := commitLoop encode failAt (j + 1) bs
      ⟨objs ++ r.persisted, j :: r.attempted, r.success⟩

/-- `create_embeddings_and_load` from load_data.py: slice the sampled set
into contiguous `BATCH_SIZE` batches and run the commit loop over them. -/
def create_embeddings_and_load (encode : List String → List (List ℚ))
    (failAt : Option Nat) (df : List ParsedRow) : LoadResult :=
  commitLoop encode failAt 0 (chunkList BATCH_SIZE df)

/-- The externally determined outcomes of one run of `main`: whether each
bootstrap step raises, the CSV contents (or a `FileNotFoundError`), the
embedding model, and the first failing batch commit if any. -/
structure MainEnv where
  engineRes : Except PyExc Unit
  dbInitRes : Except PyExc Unit
  modelRes : Except PyExc Unit
  csvRes : Except PyExc (List RawRow)
  encode : List String → List (List ℚ)
  failAt : Option Nat

/-- Observable outcome of one process run: the exit status, whether an error
diagnostic was printed, how many records were committed to the sink, and
whether any data was touched (the CSV read or any record persisted). -/
structure Outcome where
  exitCode : Nat
  printedDiag : Bool
  persistedCount : Nat
  dataTouched : Bool
  deriving DecidableEq, Repr

/-- `main` from load_data.py. Its `try` block is guarded by
`except Exception`, which prints a diagnostic and falls off the end of
`main` — an ordinary `return`, so the process exits with status 0. The
`sys.exit(1)` calls inside `initialize_database` and `load_and_clean_data`
raise `SystemExit`, which is not an `Exception` and therefore escapes the
handler, terminating the process with status 1. -/
def runMain (env : MainEnv) : Outcome :=
  match env.engineRes with
  | .error _ => ⟨0, true, 0, false⟩
  | .ok _ =>
    match env.dbInitRes with
    | .error _ => ⟨1, true, 0, false⟩
    | .ok _ =>
      match env.modelRes with
      | .error _ => ⟨0, true, 0, false⟩
      | .ok _ =>
        match env.csvRes with
        | .error _ => ⟨1, true, 0, false⟩
        | .ok rows =>
          match load_and_clean_data rows with
          | .error _ => ⟨0, true, 0, true⟩
          | .ok df =>
            if (create_embeddings_and_load env.encode env.failAt df).success then
              ⟨0, false, (create_embeddings_and_load env.encode env.failAt df).persisted.length, true⟩
            else
              ⟨0, true, (create_embeddings_and_load env.encode env.failAt df).persisted.length, true⟩

/-- The exception reaching `main`'s top-level `except Exception` handler, if
any. The two `sys.exit(1)` paths (database initialization failure, missing
CSV file) raise `SystemExit` instead, which the handler does not catch. -/
def topExc (env : MainEnv) : Option PyExc :=
  match env.engineRes with
  | .error e => some e
  | .ok _ =>
    match env.dbInitRes with
    | .error _ => Option.none
    | .ok _ =>
      match env.modelRes with
      | .error e => some e
      | .ok _ =>
        match env.csvRes with
        | .error _ => Option.none
        | .ok rows =>
          match load_and_clean_data rows with
          | .error e => some e
          | .ok df =>
            if (create_embeddings_and_load env.encode env.failAt df).success then Option.none
            else some .dbError

/-- A length-preserving stand-in embedding model for concrete runs. -/
def encodeW : List String → List (List ℚ) := fun ts => ts.map (fun _ => [])

/-- A run in which loading the embedding model raises. -/
def envModelFail : MainEnv :=
  ⟨.ok (), .ok (), .error .valueError, .ok threeRows, encodeW, Option.none⟩

/-- A run in which the commit of batch 0 raises. -/
def envCommitFail : MainEnv :=
  ⟨.ok (), .ok (), .ok (), .ok threeRows, encodeW, some 0⟩


/-! ### Helper lemmas -/

/-- The modelled `literal_eval` only ever raises `SyntaxError`, which both of
the script's handlers catch. -/
theorem literal_eval_err_kind (s : String) (e : PyExc)
    (h : literal_eval s = .error e) : e = .syntaxError := by
  unfold literal_eval at h
  split at h
  · split at h
    · exact absurd h (by simp)
    · exact (Except.error.inj h).symm
  · exact (Except.error.inj h).symm

/-- The sample draw returns exactly `min n l.length` rows. -/
theorem sampleDraw_length {α : Type} (n : Nat) :
    ∀ (s : Nat) (l : List α), (sampleDraw n s l).length = min n l.length := by
  induction n with
  | zero => intro s l; simp [sampleDraw]
  | succ n ih =>
    intro s l
    rw [sampleDraw]
    split
    · rename_i h; simp [h]
    · rename_i h
      have hpos : 0 < l.length := Nat.pos_of_ne_zero h
      have hi : lcgStep s % l.length < l.length := Nat.mod_lt _ hpos
      simp only [List.length_cons, ih]
      rw [List.length_eraseIdx]
      simp only [hi, if_pos]
      omega

/-- Every sampled row comes from the input. -/
theorem sampleDraw_mem {α : Type} (n : Nat) :
    ∀ (s : Nat) (l : List α) (x : α), x ∈ sampleDraw n s l → x ∈ l := by
  induction n with
  | zero => intro s l x hx; simp [sampleDraw] at hx
  | succ n ih =>
    intro s l x hx
    rw [sampleDraw] at hx
    split at hx
    · simp at hx
    · simp only [List.mem_cons] at hx
      rcases hx with hx | hx
      · subst hx; exact List.get_mem _ _ _
      · exact List.mem_of_mem_eraseIdx (ih _ _ _ hx)

/-- The sampling stage keeps only rows of its input. -/
theorem sampleStage_mem {α : Type} (n : Nat) (l : List α) (x : α)
    (hx : x ∈ sampleStage n l) : x ∈ l := by
  unfold sampleStage at hx
  split at hx
  · exact sampleDraw_mem n 42 l x hx
  · exact hx

/-- Concatenating the batches gives back the input list. -/
theorem chunkGo_flatten {α : Type} (B : Nat) (hB : 0 < B) :
    ∀ (fuel : Nat) (l : List α), l.length ≤ fuel → (chunkGo B fuel l).flatten = l := by
  intro fuel
  induction fuel with
  | zero =>
    intro l hl
    have : l = [] := List.eq_nil_of_length_eq_zero (Nat.le_zero.mp hl)
    simp [this, chunkGo]
  | succ fuel ih =>
    intro l hl
    cases l with
    | nil => simp [chunkGo]
    | cons x xs =>
      have hd : ((x :: xs).drop B).length ≤ fuel := by
        simp only [List.length_drop, List.length_cons]
        simp only [List.length_cons] at hl
        omega
      rw [chunkGo]
      simp only [List.flatten_cons, ih _ hd, List.take_append_drop]

/-- The batch sizes are `chunkSizes` of the input length. -/
theorem chunkGo_lengths {α : Type} (B : Nat) (hB : 0 < B) :
    ∀ (fuel : Nat) (l : List α), l.length ≤ fuel →
      (chunkGo B fuel l).map List.length = chunkSizesGo B fuel l.length := by
  intro fuel
  induction fuel with
  | zero =>
    intro l hl
    have : l = [] := List.eq_nil_of_length_eq_zero (Nat.le_zero.mp hl)
    simp [this, chunkGo, chunkSizesGo]
  | succ fuel ih =>
    intro l hl
    cases l with
    | nil => simp [chunkGo, chunkSizesGo]
    | cons x xs =>
      have hd : ((x :: xs).drop B).length ≤ fuel := by
        simp only [List.length_drop, List.length_cons]
        simp only [List.length_cons] at hl
        omega
      rw [chunkGo]
      simp only [List.map_cons, List.length_take, List.length_cons, ih _ hd]
      rw [chunkSizesGo]
      simp only [List.length_drop, List.length_cons]

/-- Every batch is nonempty and no larger than `B`. -/
theorem chunkGo_mem_size {α : Type} (B : Nat) (hB : 0 < B) :
    ∀ (fuel : Nat) (l : List α) (c : List α), l.length ≤ fuel →
      c ∈ chunkGo B fuel l → 0 < c.length ∧ c.length ≤ B := by
  intro fuel
  induction fuel with
  | zero =>
    intro l c hl hc
    have : l = [] := List.eq_nil_of_length_eq_zero (Nat.le_zero.mp hl)
    subst this
    simp [chunkGo] at hc
  | succ fuel ih =>
    intro l c hl hc
    cases l with
    | nil => simp [chunkGo] at hc
    | cons x xs =>
      rw [chunkGo] at hc
      simp only [List.mem_cons] at hc
      rcases hc with hc | hc
      · subst hc
        simp only [List.length_take, List.length_cons]
        omega
      · have hd : ((x :: xs).drop B).length ≤ fuel := by
          simp only [List.length_drop, List.length_cons]
          simp only [List.length_cons] at hl
          omega
        exact ih _ _ hd hc

/-- With a length-preserving embedder, each batch yields one object per
row. -/
theorem mkObjects_length (encode : List String → List (List ℚ))
    (hlen : ∀ ts, (encode ts).length = ts.length) (b : List ParsedRow) :
    (mkObjects encode b).length = b.length := by
  simp [mkObjects, List.length_zipWith, hlen]

/-- The concatenated objects of a run over some batches are as many as the
rows of those batches. -/
theorem flatten_mkObjects_length (encode : List String → List (List ℚ))
    (hlen : ∀ ts, (encode ts).length = ts.length) :
    ∀ bs : List (List ParsedRow),
      ((bs.map (mkObjects encode)).flatten).length = (bs.map List.length).sum := by
  intro bs
  induction bs with
  | nil => simp
  | cons b bs ih => simp [mkObjects_length encode hlen, ih]

/-- A run whose commits all succeed persists every batch, in order, and
attempts each batch exactly once. -/
theorem commitLoop_none (encode : List String → List (List ℚ)) :
    ∀ (bs : List (List ParsedRow)) (j : Nat),
      commitLoop encode Option.none j bs =
        ⟨(bs.map (mkObjects encode)).flatten, List.range' j bs.length, true⟩ := by
  intro bs
  induction bs with
  | nil => intro j; simp [commitLoop, List.range']
  | cons b bs ih =>
    intro j
    rw [commitLoop, ih (j + 1)]
    simp [List.range'_succ]

/-- A run whose commit of batch `K` raises persists exactly the batches
before `K` and attempts exactly the batches up to and including `K`. -/
theorem commitLoop_fail (encode : List String → List (List ℚ)) (K : Nat) :
    ∀ (bs : List (List ParsedRow)) (j : Nat), j ≤ K → K < j + bs.length →
      commitLoop encode (some K) j bs =
        ⟨((bs.take (K - j)).map (mkObjects encode)).flatten,
          List.range' j (K - j + 1), false⟩ := by
  intro bs
  induction bs with
  | nil => intro j h1 h2; simp at h2; omega
  | cons b bs ih =>
    intro j h1 h2
    rw [commitLoop]
    by_cases hj : K = j
    · subst hj
      rw [if_pos rfl]
      simp [List.range'_succ, List.range']
    · rw [if_neg (by simp [hj])]
      rw [ih (j + 1) (by omega) (by simp only [List.length_cons] at h2; omega)]
      have hm : K - j = (K - (j + 1)) + 1 := by omega
      rw [hm, List.take_succ_cons]
      simp only [List.map_cons, List.flatten_cons, List.range'_succ]

/-- Rows surviving the calories filter come from its input and have a
positive calories comparison. -/
theorem keepMasked_spec :
    ∀ (rows : List ParsedRow) (mask : List Bool),
      mapE (fun r => pyGtZero r.calories) rows = .ok mask →
      ∀ r ∈ keepMasked rows mask, r ∈ rows ∧ pyGtZero r.calories = .ok true := by
  intro rows
  induction rows with
  | nil =>
    intro mask h r hr
    simp [keepMasked] at hr
  | cons a rows ih =>
    intro mask h r hr
    rw [mapE] at h
    cases hga : pyGtZero a.calories with
    | error e => rw [hga] at h; exact absurd h (by simp)
    | ok b =>
      rw [hga] at h
      cases hrest : mapE (fun r => pyGtZero r.calories) rows with
      | error e => rw [hrest] at h; exact absurd h (by simp)
      | ok bs =>
        rw [hrest] at h
        have hmask : mask = b :: bs := (Except.ok.inj h).symm
        subst hmask
        rw [keepMasked] at hr
        by_cases hb : b
        · subst hb
          rw [if_pos rfl] at hr
          rcases List.mem_cons.mp hr with hra | hrb
          · subst hra; exact ⟨List.mem_cons_self _ _, hga⟩
          · rcases ih bs hrest r hrb with ⟨hm, hg⟩
            exact ⟨List.mem_cons_of_mem _ hm, hg⟩
        · rw [if_neg hb] at hr
          rcases ih bs hrest r hr with ⟨hm, hg⟩
          exact ⟨List.mem_cons_of_mem _ hm, hg⟩

/-- Rows surviving `df[df['calories'] > 0]` come from its input and satisfy
the comparison. -/
theorem caloriesFilter_spec (rows out : List ParsedRow)
    (h : caloriesFilter rows = .ok out) :
    ∀ r ∈ out, r ∈ rows ∧ pyGtZero r.calories = .ok true := by
  unfold caloriesFilter at h
  cases hm : mapE (fun r => pyGtZero r.calories) rows with
  | error e => rw [hm] at h; exact absurd h (by simp)
  | ok mask =>
    rw [hm] at h
    have hout : out = keepMasked rows mask := (Except.ok.inj h).symm
    subst hout
    exact keepMasked_spec rows mask hm

/-! ### Claim theorems -/

/-- C7 (amended): `clean_text` parses its input as a literal; when the result
is a list all of whose elements are strings it returns the elements joined
with a comma-space; when parsing fails, or succeeds with a non-list value, it
returns the input unchanged. (The claim's unconditional success case fails
when the parsed list has a non-string element: see the counterexample and
C10.) -/
theorem clean_text_contract (s : String) :
    (∀ (xs : List PyValue) (ss : List String),
      literal_eval s = .ok (.list xs) →
      xs.mapM (fun v => match v with | .str t => some t | _ => Option.none) = some ss →
      clean_text s = .ok (String.intercalate ", " ss)) ∧
    ((∀ xs : List PyValue, literal_eval s ≠ .ok (.list xs)) →
      clean_text s = .ok s) := by
  constructor
  · intro xs ss hp hs
    unfold clean_text
    rw [hp]
    show joinComma xs = .ok (String.intercalate ", " ss)
    unfold joinComma
    rw [hs]
  · intro h
    unfold clean_text
    cases hp : literal_eval s with
    | ok v =>
      cases v with
      | list xs => exact absurd hp (h xs)
      | str t => rfl
      | int n => rfl
      | float m k => rfl
      | bool b => rfl
      | none => rfl
    | error e =>
      rw [literal_eval_err_kind s e hp]
      rfl

/-- C7 witness: the spec's scenario, `clean_text "['mix', 'bake']" =
"mix, bake"`, through the amended contract. -/
theorem clean_text_contract_witness :
    literal_eval "['mix', 'bake']" = .ok (.list [.str "mix", .str "bake"]) ∧
    clean_text "['mix', 'bake']" = .ok "mix, bake" := by
  refine ⟨rfl, ?_⟩
  have h := (clean_text_contract "['mix', 'bake']").1 [.str "mix", .str "bake"]
    ["mix", "bake"] rfl rfl
  rw [h]
  rfl

/-- C7 counterexample: `"[1, 2]"` parses successfully as a list literal, yet
`clean_text` neither returns the re-joined elements nor the original string:
it raises an uncaught `TypeError`. -/
theorem clean_text_claim_counterexample :
    literal_eval "[1, 2]" = .ok (.list [.int 1, .int 2]) ∧
    clean_text "[1, 2]" ≠ .ok "1, 2" ∧
    clean_text "[1, 2]" ≠ .ok "[1, 2]" := by
  have h0 : clean_text "[1, 2]" = .error .typeError := rfl
  refine ⟨rfl, ?_, ?_⟩ <;> rw [h0] <;> simp

/-- C10: on the input `"[1, 2]"`, which parses to a list with non-string
elements, the `", ".join` raises a `TypeError` that the handler (which
catches only `ValueError` and `SyntaxError`) does not catch, so the exception
escapes `clean_text` instead of the original text being returned. -/
theorem clean_text_typeError_escapes :
    literal_eval "[1, 2]" = .ok (.list [.int 1, .int 2]) ∧
    clean_text "[1, 2]" = .error .typeError ∧
    caughtByCleanText .typeError = false :=
  ⟨rfl, rfl, rfl⟩

/-- C8: for a row whose nutrition string parses to a 7-element list, the
cleaner's extraction takes calories from index 0, fat_g from index 1,
protein_g from index 4 and carbs_g from index 6. -/
theorem nutrition_fixed_indices (r : RawRow) (s : String)
    (a b c d e f g : PyValue)
    (hs : r.nutrition = some s)
    (hp : literal_eval s = .ok (.list [a, b, c, d, e, f, g])) :
    nutritionPass [r] = .ok [⟨r.name, r.nutrition, r.steps, r.ingredients, a, b, e, g⟩] := by
  unfold nutritionPass
  have h1 : mapE (fun r => parseNut r.nutrition) [r] = .ok [.list [a, b, c, d, e, f, g]] := by
    simp [mapE, parseNut, hs, hp]
  rw [h1]
  rfl

/-- C8 witness: the spec's scenario string yields calories=100.0, fat_g=5.0,
protein_g=3.0, carbs_g=10.0 (the `.float m s` encoding denotes `m / 10 ^ s`,
as the `pyQ` conjuncts state). -/
theorem nutrition_fixed_indices_witness :
    nutritionPass [nutRow] = .ok [⟨some "dish", some nutStr, some "st", some "ing",
      .float 1000 1, .float 50 1, .float 30 1, .float 100 1⟩] ∧
    pyQ (.float 1000 1) = some 100 ∧ pyQ (.float 50 1) = some 5 ∧
    pyQ (.float 30 1) = some 3 ∧ pyQ (.float 100 1) = some 10 := by
  refine ⟨?_, by norm_num [pyQ], by norm_num [pyQ], by norm_num [pyQ], by norm_num [pyQ]⟩
  exact nutrition_fixed_indices nutRow nutStr (.float 1000 1) (.float 50 1) (.float 20 1)
    (.float 10 1) (.float 30 1) (.float 5 1) (.float 100 1) rfl rfl

/-- C5: if the first nutrition pass raises for any row, the cleaner drops all
rows with a missing nutrition value and retries the pass exactly once over
the reduced set; a failure of the retry is the component's final result (no
further retry). -/
theorem nutrition_global_fallback (rows : List RawRow) (e : PyExc)
    (h : nutritionPass rows = .error e) :
    cleanNutritionStage rows = nutritionPass (rows.filter (fun r => r.nutrition.isSome)) ∧
    (∀ e2 : PyExc, nutritionPass (rows.filter (fun r => r.nutrition.isSome)) = .error e2 →
      cleanNutritionStage rows = .error e2) := by
  have h1 : cleanNutritionStage rows =
      nutritionPass (rows.filter (fun r => r.nutrition.isSome)) := by
    unfold cleanNutritionStage
    rw [h]
  exact ⟨h1, fun e2 h2 => h1.trans h2⟩

/-- C5 witness: a missing nutrition cell makes the first pass raise
`ValueError`; the fallback drops that row and the retry succeeds on the
remaining row. -/
theorem nutrition_global_fallback_witness :
    nutritionPass fallbackRows = .error .valueError ∧
    cleanNutritionStage fallbackRows =
      nutritionPass (fallbackRows.filter (fun r => r.nutrition.isSome)) ∧
    cleanNutritionStage fallbackRows = .ok [cleanedCake] :=
  ⟨rfl, (nutrition_global_fallback fallbackRows .valueError rfl).1, rfl⟩

/-- C6: every record in the cleaner's output has all seven required fields
present and a positive calories value; and on the 3-row scenario input with
one zero-calorie row the output has exactly 2 rows. -/
theorem cleaner_postcondition (rows : List RawRow) (out : List ParsedRow)
    (h : load_and_clean_data rows = .ok out) :
    (∀ r ∈ out, requiredPresent r = true ∧ pyGtZero r.calories = .ok true) ∧
    load_and_clean_data threeRows = .ok cleanedThree ∧ cleanedThree.length = 2 := by
  refine ⟨?_, rfl, rfl⟩
  intro r hr
  unfold load_and_clean_data at h
  split at h
  · exact absurd h (by simp)
  · split at h
    · exact absurd h (by simp)
    · split at h
      · exact absurd h (by simp)
      · rename_i p h1 t h2 pos h3
        have hout : out = sampleStage SAMPLE_SIZE pos := (Except.ok.inj h).symm
        subst hout
        have hpos : r ∈ pos := sampleStage_mem SAMPLE_SIZE pos r hr
        rcases caloriesFilter_spec _ pos h3 r hpos with ⟨hk, hg⟩
        exact ⟨(List.mem_filter.mp hk).2, hg⟩

/-- C6 witness: the postcondition at the 3-row scenario. -/
theorem cleaner_postcondition_witness :
    load_and_clean_data threeRows = .ok cleanedThree ∧
    cleanedThree.length = 2 ∧
    requiredPresent cleanedSoup = true ∧ pyGtZero cleanedSoup.calories = .ok true ∧
    requiredPresent cleanedCake = true ∧ pyGtZero cleanedCake.calories = .ok true := by
  have h := cleaner_postcondition threeRows cleanedThree rfl
  have hs := h.1 cleanedSoup (by simp [cleanedThree])
  have hc := h.1 cleanedCake (by simp [cleanedThree])
  exact ⟨rfl, rfl, hs.1, hs.2, hc.1, hc.2⟩

/-- C9: if the cleaned set exceeds the target size, the sampler keeps exactly
the target number of rows, all drawn from the input, deterministically (the
sampling stage is a pure function of the input and the fixed seed 42, so two
runs on the same input select the identical subset); otherwise all rows are
kept. -/
theorem sampler_contract {α : Type} (n : Nat) (l : List α) :
    (n < l.length → (sampleStage n l).length = n ∧ ∀ x ∈ sampleStage n l, x ∈ l) ∧
    (¬ n < l.length → sampleStage n l = l) := by
  constructor
  · intro h
    constructor
    · unfold sampleStage
      rw [if_pos h, sampleDraw_length]
      omega
    · intro x hx
      exact sampleStage_mem n l x hx
  · intro h
    unfold sampleStage
    rw [if_neg h]

/-- C9 witness: drawing 2 of 4 rows keeps exactly 2; a set not exceeding the
target is kept whole. -/
theorem sampler_contract_witness :
    (sampleStage 2 [10, 20, 30, 40]).length = 2 ∧ sampleStage 3 [7] = [7] :=
  ⟨((sampler_contract 2 [10, 20, 30, 40]).1 (by norm_num)).1,
   (sampler_contract 3 [7]).2 (by norm_num)⟩

/-- C2: the batch loader partitions its input into contiguous batches of size
`B` preserving order (their concatenation is the input), each batch nonempty
and at most `B` long, with sizes `chunkSizes B n`; for 2500 rows and `B =
1000` the sizes are `[1000, 1000, 500]`; and in a fully successful run every
batch is committed exactly once, in order. -/
theorem batch_partition {α : Type} (B : Nat) (hB : 0 < B) (l : List α) :
    (chunkList B l).flatten = l ∧
    (chunkList B l).map List.length = chunkSizes B l.length ∧
    (∀ c ∈ chunkList B l, 0 < c.length ∧ c.length ≤ B) ∧
    chunkSizes 1000 2500 = [1000, 1000, 500] ∧
    (∀ (encode : List String → List (List ℚ)) (df : List ParsedRow),
      (create_embeddings_and_load encode Option.none df).attempted =
        List.range (chunkList BATCH_SIZE df).length) := by
  refine ⟨chunkGo_flatten B hB l.length l le_rfl,
    chunkGo_lengths B hB l.length l le_rfl,
    fun c hc => chunkGo_mem_size B hB l.length l c le_rfl hc,
    by rfl,
    fun encode df => ?_⟩
  rw [create_embeddings_and_load, commitLoop_none]
  rw [List.range_eq_range']

/-- C2 witness: the partition properties at 2500 rows with batch size
1000. -/
theorem batch_partition_witness :
    (chunkList 1000 (List.range 2500)).flatten = List.range 2500 ∧
    (chunkList 1000 (List.range 2500)).map List.length = chunkSizes 1000 2500 := by
  have h := batch_partition 1000 (by norm_num) (List.range 2500)
  refine ⟨h.1, ?_⟩
  have h2 := h.2.1
  rwa [List.length_range] at h2

/-- C1: with a length-preserving embedder, a fully successful run persists
exactly one record per sampled row; a run whose commit of batch `K` raises
persists exactly the rows of batches strictly before `K` (they are not
rolled back), and attempts no batch beyond `K`. -/
theorem batch_loader_guarantee (encode : List String → List (List ℚ))
    (hlen : ∀ ts, (encode ts).length = ts.length) (df : List ParsedRow) :
    ((create_embeddings_and_load encode Option.none df).success = true ∧
     (create_embeddings_and_load encode Option.none df).persisted.length = df.length) ∧
    (∀ K, K < (chunkList BATCH_SIZE df).length →
      (create_embeddings_and_load encode (some K) df).success = false ∧
      (create_embeddings_and_load encode (some K) df).persisted =
        (((chunkList BATCH_SIZE df).take K).map (mkObjects encode)).flatten ∧
      (create_embeddings_and_load encode (some K) df).persisted.length =
        (((chunkList BATCH_SIZE df).take K).map List.length).sum ∧
      (create_embeddings_and_load encode (some K) df).attempted = List.range (K + 1)) := by
  constructor
  · rw [create_embeddings_and_load, commitLoop_none]
    refine ⟨rfl, ?_⟩
    rw [flatten_mkObjects_length encode hlen]
    have hflat : (chunkList BATCH_SIZE df).flatten = df :=
      chunkGo_flatten BATCH_SIZE (by norm_num [BATCH_SIZE]) df.length df le_rfl
    calc ((chunkList BATCH_SIZE df).map List.length).sum
        = (chunkList BATCH_SIZE df).flatten.length := (List.length_flatten _).symm
      _ = df.length := by rw [hflat]
  · intro K hK
    have hc := commitLoop_fail encode K (chunkList BATCH_SIZE df) 0 (Nat.zero_le K) (by omega)
    rw [Nat.sub_zero] at hc
    rw [create_embeddings_and_load, hc]
    exact ⟨rfl, rfl, flatten_mkObjects_length encode hlen _, by rw [List.range_eq_range']⟩

/-- C1 witness: a concrete run over the cleaned 3-row scenario (one batch):
full success persists all rows; a commit failure at batch 0 persists nothing,
attempts only batch 0, and reports failure. -/
theorem batch_loader_guarantee_witness :
    (create_embeddings_and_load encodeW Option.none cleanedThree).success = true ∧
    (create_embeddings_and_load encodeW Option.none cleanedThree).persisted.length =
      cleanedThree.length ∧
    (create_embeddings_and_load encodeW (some 0) cleanedThree).success = false ∧
    (create_embeddings_and_load encodeW (some 0) cleanedThree).persisted.length = 0 ∧
    (create_embeddings_and_load encodeW (some 0) cleanedThree).attempted = List.range 1 := by
  have h := batch_loader_guarantee encodeW (fun ts => by simp [encodeW]) cleanedThree
  have h0 := h.2 0 (by norm_num [chunkList, BATCH_SIZE, cleanedThree, chunkGo])
  refine ⟨h.1.1, h.1.2, h0.1, ?_, h0.2.2.2⟩
  rw [h0.2.2.1]
  rfl

/-- C3 counterexample: in a run where only the model load fails, `main`
prints a diagnostic and touches no data, but the process exits with status 0
— the claimed non-zero exit status does not occur (the top-level
`except Exception` swallows the error and `main` returns normally). -/
theorem model_load_exit_counterexample :
    (runMain envModelFail).printedDiag = true ∧
    (runMain envModelFail).dataTouched = false ∧
    (runMain envModelFail).exitCode = 0 ∧
    ¬(runMain envModelFail).exitCode ≠ 0 :=
  ⟨rfl, rfl, rfl, fun h => h rfl⟩

/-- C3 (amended): if loading the embedding model fails, the run aborts with a
printed diagnostic before any data is touched and nothing is persisted, but
the process exits with the ordinary status 0, not a non-zero status. -/
theorem model_load_failure_aborts (env : MainEnv) (e : PyExc)
    (h1 : env.engineRes = .ok ()) (h2 : env.dbInitRes = .ok ())
    (h3 : env.modelRes = .error e) :
    runMain env = ⟨0, true, 0, false⟩ := by
  unfold runMain
  rw [h1, h2, h3]

/-- C3 witness: the amended behaviour at a concrete failing run. -/
theorem model_load_failure_aborts_witness :
    runMain envModelFail = ⟨0, true, 0, false⟩ :=
  model_load_failure_aborts envModelFail .valueError rfl rfl rfl

/-- C4: whenever an ordinary exception (not a `SystemExit` from `sys.exit`)
reaches the top level of `main`, it is caught there, a diagnostic is printed,
and the process exits with the ordinary status 0. -/
theorem top_level_catch (env : MainEnv) (e : PyExc) (h : topExc env = some e) :
    (runMain env).exitCode = 0 ∧ (runMain env).printedDiag = true := by
  unfold topExc at h
  unfold runMain
  cases h1 : env.engineRes with
  | error e1 => exact ⟨rfl, rfl⟩
  | ok u1 =>
    rw [h1] at h
    cases h2 : env.dbInitRes with
    | error e2 => rw [h2] at h; simp at h
    | ok u2 =>
      rw [h2] at h
      cases h3 : env.modelRes with
      | error e3 => exact ⟨rfl, rfl⟩
      | ok u3 =>
        rw [h3] at h
        cases h4 : env.csvRes with
        | error e4 => rw [h4] at h; simp at h
        | ok rows =>
          rw [h4] at h
          dsimp only at h ⊢
          cases h5 : load_and_clean_data rows with
          | error e5 => exact ⟨rfl, rfl⟩
          | ok df =>
            rw [h5] at h
            dsimp only at h ⊢
            cases hs : (create_embeddings_and_load env.encode env.failAt df).success with
            | true => rw [hs] at h; simp at h
            | false => simp [hs]

/-- C4 witness: a commit failure reaches the top level as an ordinary
exception; the run prints a diagnostic and exits 0. -/
theorem top_level_catch_witness :
    topExc envCommitFail = some .dbError ∧
    (runMain envCommitFail).exitCode = 0 ∧
    (runMain envCommitFail).printedDiag = true := by
  have h := top_level_catch envCommitFail .dbError rfl
  exact ⟨rfl, h.1, h.2⟩
